import Mathlib

/-!
# A verification of `discovery-infra/junit_log_parser.py`

This file shallowly embeds the log-to-JUnit conversion utility: parsing a
fixed log-line format via a Python-`re` style backtracking matcher,
deduplicating failures per function, building test cases and suites.

File reading, XML serialisation and the CLI are modelled at their natural
boundaries: a log file is a list of its lines, a directory of matching log
files is a list of `(stem, lines)` pairs, and fallible effects (`mkdir`, the
export body) are values of a Python-result type.
-/

namespace JunitLogParser

/-! ## Data model

`CaseFailure` and `LogEntry` are the dataclasses of the source.  `TestCase`
models the `junit_xml.TestCase` objects as the source uses them: the fields
passed to the constructor (`name`, `classname`, `category`, `timestamp`,
which defaults to `None`) and the `failures` list (empty on construction,
appended to by the source). -/

structure CaseFailure where
  message : String
  output : String := ""
  type : String := ""
deriving Repr, DecidableEq

structure LogEntry where
  time : String
  level : String
  msg : String
  func : String
  file : String
  error : Option String := none
deriving Repr, DecidableEq

structure TestCase where
  name : String
  classname : String
  category : String
  timestamp : Option String := none
  failures : List CaseFailure := []
deriving Repr, DecidableEq

structure TestSuite where
  name : String
  test_cases : List TestCase
  timestamp : Option String
deriving Repr, DecidableEq

/-! ## The log-line pattern

The source matches each line with `re.match` against

  `time="(?P<time>(.*?))" level=(?P<level>(.*?)) msg="(?P<msg>.*)" `
  `func=(?P<func>.*) file="(?P<file>(.*?))" (error="(?P<error>.*)")?`

We embed exactly the regex features this pattern uses: literal runs, lazy
dot-star capture groups, greedy dot-star capture groups, and one optional
group in final position.  `.` never matches a newline.  The matcher follows
Python's leftmost backtracking priority: a lazy group tries the shortest
capture first, a greedy group the longest, and the whole pattern needs to
match only a prefix of the line.

Because the optional group stands at the very end of the pattern and its
empty alternative always succeeds, it never constrains the backtracking of
the groups before it.  We therefore match the eleven mandatory elements
first, then attempt the error sub-pattern `error="(.*)"` on the leftover
text; its failure leaves the `error` capture unset. -/

inductive SElem where
  | lit (l : List Char)
  | lazyGroup
  | greedyGroup
deriving Repr, DecidableEq

/-- All ways to split `s` as `pre ++ suf` where `pre` contains no newline
(the characters a run of `.` may consume), shortest `pre` first. -/
def dotSplits : List Char → List (List Char × List Char)
  | [] => [([], [])]
  | c :: s =>
    ([], c :: s) ::
      (if c = '\n' then [] else (dotSplits s).map fun p => (c :: p.1, p.2))

/-- Fuel-indexed backtracking matcher.  On success it returns the captures of
the groups in order together with the unconsumed suffix of the subject.  The
fuel only needs to dominate the number of pattern elements; it makes the
recursion structural. -/
def matchSF : Nat → List SElem → List Char → Option (List (List Char) × List Char)
  | _, [], s => some ([], s)
  | 0, _ :: _, _ => none
  | fuel + 1, .lit l :: ps, s =>
    if l.isPrefixOf s then matchSF fuel ps (s.drop l.length) else none
  | fuel + 1, .lazyGroup :: ps, s =>
    (dotSplits s).findSome? fun pr =>
      (matchSF fuel ps pr.2).map fun r => (pr.1 :: r.1, r.2)
  | fuel + 1, .greedyGroup :: ps, s =>
    (dotSplits s).reverse.findSome? fun pr =>
      (matchSF fuel ps pr.2).map fun r => (pr.1 :: r.1, r.2)

def matchPattern (ps : List SElem) (s : List Char) :
    Option (List (List Char) × List Char) :=
  matchSF ps.length ps s

/-- The eleven mandatory elements of `LOG_FORMAT`, capturing
`time`, `level`, `msg`, `func`, `file` in order.  Note the literal after the
`file` group is `"` followed by a space: the space the regex puts before the
optional error group is part of the mandatory text. -/
def LOG_FORMAT_mandatory : List SElem :=
  [.lit "time=\"".toList, .lazyGroup,
   .lit "\" level=".toList, .lazyGroup,
   .lit " msg=\"".toList, .greedyGroup,
   .lit "\" func=".toList, .greedyGroup,
   .lit " file=\"".toList, .lazyGroup,
   .lit "\" ".toList]

/-- The optional trailing group `error="(?P<error>.*)"`. -/
def LOG_FORMAT_error : List SElem :=
  [.lit "error=\"".toList, .greedyGroup, .lit "\"".toList]

/-- `re.match(LOG_FORMAT, line)` followed by `LogEntry(**values.groupdict())`:
`none` when the line does not match, otherwise the parsed entry, with
`error := none` when the optional group did not participate in the match. -/
def pyMatchLog (line : String) : Option LogEntry :=
  match matchPattern LOG_FORMAT_mandatory line.toList with
  | none => none
  | some (caps, rest) =>
    match caps with
    | [t, l, m, f, fi] =>
      let err : Option String :=
        match matchPattern LOG_FORMAT_error rest with
        | some ([e], _) => some e.asString
        | _ => none
      some { time := t.asString, level := l.asString, msg := m.asString,
             func := f.asString, file := fi.asString, error := err }
    | _ => none

/-! ## Deduplication and case building -/

def EXPORTED_LOG_LEVELS : List String := ["fatal", "error"]

/-- `fail_cases` is the `Dict[str, List[TestCase]]` of the source; Python
dicts preserve insertion order, so we model it as an association list. -/
abbrev FailCases := List (String × List TestCase)

/-- `fail_cases.get(func, [])`. -/
def dictGet : FailCases → String → List TestCase
  | [], _ => []
  | (k, v) :: rest, f => if k = f then v else dictGet rest f

/-- `func in fail_cases`. -/
def dictHasKey : FailCases → String → Bool
  | [], _ => false
  | (k, _) :: rest, f => k = f || dictHasKey rest f

/-- `fail_cases[func] += cases` (the key is always present at the call site). -/
def dictAppend : FailCases → String → List TestCase → FailCases
  | [], _, _ => []
  | (k, v) :: rest, f, cs =>
    if k = f then (k, v ++ cs) :: rest else (k, v) :: dictAppend rest f cs

/-- The composed message `f"{entry.msg}\n{entry.error if entry.error else ''}"`:
a `None` or empty error contributes the empty string. -/
def entryMessage (entry : LogEntry) : String :=
  entry.msg ++ "\n" ++ entry.error.getD ""

/-- `is_duplicate_entry`: some already-built case for `entry.func` has a
non-empty failure list whose first failure carries exactly `entry_message`. -/
def is_duplicate_entry (entry : LogEntry) (entry_message : String)
    (fail_cases : FailCases) : Bool :=
  (dictGet fail_cases entry.func).any fun case =>
    match case.failures with
    | [] => false
    | f :: _ => f.message = entry_message

/-- `get_log_entry_case`: suppress duplicates entirely; otherwise emit one
failing case, plus — for non-fatal levels — one extra case with the same
name and no failure, the "flaky" sibling. -/
def get_log_entry_case (entry : LogEntry) (fail_cases : FailCases)
    (suite_name : String) : List TestCase :=
  let message := entryMessage entry
  if is_duplicate_entry entry message fail_cases then []
  else
    let test_case : TestCase :=
      { name := entry.func, classname := suite_name, category := suite_name,
        timestamp := some entry.time,
        failures := [{ message := message, output := message, type := entry.level }] }
    if entry.level ≠ "fatal" then
      [test_case,
       { name := entry.func, classname := suite_name, category := suite_name }]
    else
      [test_case]

/-- One iteration of the `for line in f` loop of `get_failure_cases`:
skip non-matching lines, skip levels outside `EXPORTED_LOG_LEVELS`, otherwise
ensure the `func` key exists and extend its case list. -/
def processLine (suite_name : String) (fail_cases : FailCases)
    (line : String) : FailCases :=
  match pyMatchLog line with
  | none => fail_cases
  | some entry =>
    if EXPORTED_LOG_LEVELS.contains entry.level then
      let fc := if dictHasKey fail_cases entry.func then fail_cases
                else fail_cases ++ [(entry.func, [])]
      dictAppend fc entry.func (get_log_entry_case entry fc suite_name)
    else fail_cases

def processLines (suite_name : String) (fail_cases : FailCases)
    (lines : List String) : FailCases :=
  lines.foldl (processLine suite_name) fail_cases

/-- `get_failure_cases`: run the loop over all lines of the file, then flatten
the per-function case lists in dictionary (insertion) order. -/
def get_failure_cases (lines : List String) (suite_name : String) : List TestCase :=
  let fail_cases := processLines suite_name [] lines
  (fail_cases.map Prod.snd).flatten

/-! ## Suites and export -/

/-- Fuel-indexed `str.replace`: replace non-overlapping occurrences of `pat`
(nonempty) left to right.  Any fuel of at least `s.length` gives Python's
semantics; the fuel makes the recursion structural. -/
def pyReplaceF (pat rep : List Char) : Nat → List Char → List Char
  | _, [] => []
  | 0, s => s
  | fuel + 1, c :: rest =>
    if pat ≠ [] ∧ pat.isPrefixOf (c :: rest) then
      rep ++ pyReplaceF pat rep fuel (rest.drop (pat.length - 1))
    else
      c :: pyReplaceF pat rep fuel rest

def pyReplace (pat rep s : List Char) : List Char :=
  pyReplaceF pat rep s.length s

/-- `Path(file).stem.replace("k8s_", "")`, as a function of the stem. -/
def suite_name_of_stem (stem : String) : String :=
  (pyReplace "k8s_".toList [] stem.toList).asString

/-- The body of the per-file loop of `export_service_logs_to_junit_suites`:
derive the suite name from the stem, collect the failure cases, and build one
suite whose timestamp is that of the first case, or `None` without cases. -/
def build_suite (stem : String) (lines : List String) : TestSuite :=
  let suite_name := suite_name_of_stem stem
  let test_cases := get_failure_cases lines suite_name
  let timestamp : Option String :=
    match test_cases with
    | [] => none
    | c :: _ => c.timestamp
  { name := suite_name, test_cases := test_cases, timestamp := timestamp }

/-- `export_service_logs_to_junit_suites` over the directory listing: one
suite per matching file, in order.  A matching file is given by its stem and
its lines. -/
def export_service_logs_to_junit_suites
    (files : List (String × List String)) : List TestSuite :=
  files.map fun f => build_suite f.1 f.2

/-! ## The `main` entry point

`main` parses `--src`/`--dst`, runs `report_dir.mkdir(exist_ok=True)` — note:
outside any exception handler — and only then enters the
`with SuppressAndLog(BaseException)` block that wraps the export call.
Fallible Python steps are modelled by `PyResult`. -/

inductive PyResult (α : Type) where
  | ok (a : α)
  | exc (e : String)
deriving Repr, DecidableEq

/-- Modelled from the spec: `SuppressAndLog` comes from the repository's
`logger` module, which is not under `src/`; per the spec it is a scoped
wrapper that catches the given exception class — here `BaseException`, the
broadest possible — logs it, and swallows it, so the wrapped block always
completes normally. -/
def SuppressAndLog (body : PyResult Unit) : PyResult Unit :=
  match body with
  | .ok _ => .ok ()
  | .exc _ => .ok ()

/-- `main` after argument parsing, as a function of the outcome of the
`mkdir` call and of the export body: an exception in `mkdir` propagates
(it happens before the `SuppressAndLog` block); the export body is wrapped,
after which the process finishes with exit code 0. -/
def main_model (mkdir_result export_result : PyResult Unit) : PyResult Nat :=
  match mkdir_result with
  | .exc e => .exc e
  | .ok _ =>
    match SuppressAndLog export_result with
    | .ok _ => .ok 0
    | .exc e => .exc e

/-- The message of the first failure of a case, if any: the datum
`is_duplicate_entry` inspects. -/
def firstFailureMessage (c : TestCase) : Option String :=
  c.failures.head?.map CaseFailure.message

/-- Occurrence of `pat` as a contiguous substring of `s`. -/
def hasSubstr (pat s : List Char) : Bool :=
  s.tails.any fun t => pat.isPrefixOf t

/-! ## Dictionary lemmas -/

theorem dictAppend_nil (fc : FailCases) (f : String) : dictAppend fc f [] = fc := by
  induction fc with
  | nil => rfl
  | cons kv rest ih =>
    obtain ⟨k, v⟩ := kv
    by_cases h : k = f <;> simp [dictAppend, h, ih]

theorem dictGet_append_empty (fc : FailCases) (f g : String) :
    dictGet (fc ++ [(f, [])]) g = dictGet fc g := by
  induction fc with
  | nil => by_cases h : f = g <;> simp [dictGet, h]
  | cons kv rest ih =>
    obtain ⟨k, v⟩ := kv
    by_cases h : k = g <;> simp [dictGet, h, ih]

theorem dictHasKey_append_self (fc : FailCases) (f : String) :
    dictHasKey (fc ++ [(f, [])]) f = true := by
  induction fc with
  | nil => simp [dictHasKey]
  | cons kv rest ih =>
    obtain ⟨k, v⟩ := kv
    by_cases h : k = f <;> simp [dictHasKey, h, ih]

theorem dictGet_dictAppend (fc : FailCases) (f g : String) (cs : List TestCase) :
    dictGet (dictAppend fc f cs) g =
      if f = g ∧ dictHasKey fc f then dictGet fc g ++ cs else dictGet fc g := by
  induction fc with
  | nil => simp [dictAppend, dictGet, dictHasKey]
  | cons kv rest ih =>
    obtain ⟨k, v⟩ := kv
    by_cases hkf : k = f
    · by_cases hkg : k = g
      · subst hkf; subst hkg
        simp [dictAppend, dictGet, dictHasKey]
      · subst hkf
        have hfg : ¬(k = g) := hkg
        simp [dictAppend, dictGet, dictHasKey, hkg, hfg]
    · by_cases hkg : k = g
      · subst hkg
        have hfg : ¬(f = k) := fun h => hkf h.symm
        simp [dictAppend, dictGet, dictHasKey, hkf, hfg]
      · simp [dictAppend, dictGet, dictHasKey, hkf, hkg, ih]

theorem dictHasKey_of_dictGet_ne_nil (fc : FailCases) (f : String)
    (h : dictGet fc f ≠ []) : dictHasKey fc f = true := by
  induction fc with
  | nil => exact absurd rfl h
  | cons kv rest ih =>
    obtain ⟨k, v⟩ := kv
    by_cases hk : k = f
    · simp [dictHasKey, hk]
    · simp only [dictGet, hk, if_false] at h
      simp [dictHasKey, hk, ih h]

/-! ## Unfolding lemmas for the loop body -/

theorem processLine_none (s : String) (fc : FailCases) (l : String)
    (h : pyMatchLog l = none) : processLine s fc l = fc := by
  unfold processLine; rw [h]

theorem processLine_some (s : String) (fc : FailCases) (l : String) (e : LogEntry)
    (h : pyMatchLog l = some e) :
    processLine s fc l =
      if EXPORTED_LOG_LEVELS.contains e.level then
        let fc' := if dictHasKey fc e.func then fc else fc ++ [(e.func, [])]
        dictAppend fc' e.func (get_log_entry_case e fc' s)
      else fc := by
  unfold processLine; rw [h]

theorem processLines_cons (s : String) (fc : FailCases) (l : String) (ls : List String) :
    processLines s fc (l :: ls) = processLines s (processLine s fc l) ls := rfl

theorem get_log_entry_case_dup (e : LogEntry) (fc : FailCases) (s : String)
    (h : is_duplicate_entry e (entryMessage e) fc = true) :
    get_log_entry_case e fc s = [] := by
  unfold get_log_entry_case; simp [h]

theorem get_log_entry_case_not_dup (e : LogEntry) (fc : FailCases) (s : String)
    (h : is_duplicate_entry e (entryMessage e) fc = false) :
    get_log_entry_case e fc s =
      ({ name := e.func, classname := s, category := s, timestamp := some e.time,
         failures := [{ message := entryMessage e, output := entryMessage e,
                        type := e.level }] } : TestCase)
        :: (if e.level ≠ "fatal" then
              [{ name := e.func, classname := s, category := s }] else []) := by
  unfold get_log_entry_case
  simp only [h, Bool.false_eq_true, if_false]
  by_cases hl : e.level = "fatal" <;> simp [hl]

theorem is_duplicate_entry_eq_false_iff (e : LogEntry) (m : String) (fc : FailCases) :
    is_duplicate_entry e m fc = false ↔
      ∀ c ∈ dictGet fc e.func, firstFailureMessage c ≠ some m := by
  unfold is_duplicate_entry
  rw [List.any_eq_false]
  constructor
  · intro h c hc
    have hc' := h c hc
    cases hf : c.failures with
    | nil => simp [firstFailureMessage, hf]
    | cons f r =>
      rw [hf] at hc'
      simp only [decide_eq_true_eq] at hc'
      simp [firstFailureMessage, hf, hc']
  · intro h c hc
    cases hf : c.failures with
    | nil => simp [hf]
    | cons f r =>
      have hne : ¬f.message = m := by
        intro hm
        exact h c hc (by simp [firstFailureMessage, hf, hm])
      simp [hf, hne]

/-! ## The state after one loop iteration -/

theorem dictGet_fcKey (fc : FailCases) (f G : String) :
    dictGet (if dictHasKey fc f then fc else fc ++ [(f, [])]) G = dictGet fc G := by
  split
  · rfl
  · exact dictGet_append_empty fc f G

theorem dictHasKey_fcKey (fc : FailCases) (f : String) :
    dictHasKey (if dictHasKey fc f then fc else fc ++ [(f, [])]) f = true := by
  cases h : dictHasKey fc f
  · simp [h, dictHasKey_append_self]
  · simp [h]

/-- One loop iteration never removes cases: per function, the case list only
grows at the end. -/
theorem dictGet_processLine (s : String) (fc : FailCases) (l : String) (F : String) :
    ∃ new, dictGet (processLine s fc l) F = dictGet fc F ++ new := by
  cases hp : pyMatchLog l with
  | none => exact ⟨[], by rw [processLine_none s fc l hp]; simp⟩
  | some e =>
    rw [processLine_some s fc l e hp]
    by_cases hlev : EXPORTED_LOG_LEVELS.contains e.level = true
    · rw [if_pos hlev]
      by_cases hk : dictHasKey fc e.func = true
      · rw [if_pos hk, dictGet_dictAppend]
        split
        · exact ⟨_, rfl⟩
        · exact ⟨[], by simp⟩
      · rw [if_neg hk, dictGet_dictAppend, dictGet_append_empty]
        split
        · exact ⟨_, rfl⟩
        · exact ⟨[], by simp⟩
    · rw [if_neg hlev]
      exact ⟨[], by simp⟩

theorem is_duplicate_mono (s : String) (fc : FailCases) (l : String)
    (e : LogEntry) (m : String) (h : is_duplicate_entry e m fc = true) :
    is_duplicate_entry e m (processLine s fc l) = true := by
  obtain ⟨new, hnew⟩ := dictGet_processLine s fc l e.func
  unfold is_duplicate_entry at h ⊢
  rw [hnew, List.any_append, h]
  rfl

theorem is_duplicate_processLines (s : String) (fc : FailCases) (ls : List String)
    (e : LogEntry) (m : String) (h : is_duplicate_entry e m fc = true) :
    is_duplicate_entry e m (processLines s fc ls) = true := by
  induction ls generalizing fc with
  | nil => exact h
  | cons l ls ih => exact ih _ (is_duplicate_mono s fc l e m h)

theorem is_duplicate_entry_congr_func (e e' : LogEntry) (m : String)
    (fc : FailCases) (h : e.func = e'.func) :
    is_duplicate_entry e m fc = is_duplicate_entry e' m fc := by
  unfold is_duplicate_entry; rw [h]

/-- A line whose entry is a duplicate of an already-recorded failure leaves
the state untouched. -/
theorem processLine_duplicate (s : String) (fc : FailCases) (l : String)
    (e : LogEntry) (hp : pyMatchLog l = some e)
    (hdup : is_duplicate_entry e (entryMessage e) fc = true) :
    processLine s fc l = fc := by
  rw [processLine_some s fc l e hp]
  by_cases hlev : EXPORTED_LOG_LEVELS.contains e.level = true
  · have hkey : dictHasKey fc e.func = true := by
      apply dictHasKey_of_dictGet_ne_nil
      intro hnil
      unfold is_duplicate_entry at hdup
      rw [hnil] at hdup
      simp at hdup
    rw [if_pos hlev]
    simp only [hkey, if_true]
    rw [get_log_entry_case_dup e fc s hdup, dictAppend_nil]
  · rw [if_neg hlev]

/-- After processing a line whose entry has an exported level, a failure for
its `(func, message)` pair is on record. -/
theorem is_duplicate_after_processLine (s : String) (fc : FailCases) (l : String)
    (e : LogEntry) (hp : pyMatchLog l = some e)
    (hlev : EXPORTED_LOG_LEVELS.contains e.level = true) :
    is_duplicate_entry e (entryMessage e) (processLine s fc l) = true := by
  by_cases hdup : is_duplicate_entry e (entryMessage e) fc = true
  · exact is_duplicate_mono s fc l e _ hdup
  · have hdup' : is_duplicate_entry e (entryMessage e) fc = false := by
      rwa [Bool.not_eq_true] at hdup
    rw [processLine_some s fc l e hp, if_pos hlev]
    have hget : dictGet (if dictHasKey fc e.func then fc else fc ++ [(e.func, [])])
        e.func = dictGet fc e.func := dictGet_fcKey fc e.func e.func
    have hkey := dictHasKey_fcKey fc e.func
    have hdupfc' : is_duplicate_entry e (entryMessage e)
        (if dictHasKey fc e.func then fc else fc ++ [(e.func, [])]) = false := by
      unfold is_duplicate_entry at hdup' ⊢
      rw [hget]; exact hdup'
    unfold is_duplicate_entry
    rw [dictGet_dictAppend, if_pos ⟨rfl, hkey⟩, List.any_append,
      get_log_entry_case_not_dup e _ s hdupfc']
    simp

/-- C1: once a line with level "error" has produced the failing case for a
function `F` and composed message `M`, every later line whose entry has the
same `func` and the same composed message — whatever its level, and however
many lines come in between — leaves the state exactly as it was: no failing
case and no flaky sibling is added. -/
theorem c1_later_identical_lines_add_nothing (suite : String) (fc : FailCases)
    (l0 : String) (e0 : LogEntry) (ls : List String) (l : String) (e : LogEntry)
    (h0 : pyMatchLog l0 = some e0) (hlev0 : e0.level = "error")
    (hfunc : e.func = e0.func) (hmsg : entryMessage e = entryMessage e0)
    (hparse : pyMatchLog l = some e) :
    processLine suite (processLines suite (processLine suite fc l0) ls) l =
      processLines suite (processLine suite fc l0) ls := by
  have hlevmem : EXPORTED_LOG_LEVELS.contains e0.level = true := by
    rw [hlev0]; rfl
  have h1 : is_duplicate_entry e0 (entryMessage e0) (processLine suite fc l0) = true :=
    is_duplicate_after_processLine suite fc l0 e0 h0 hlevmem
  have h2 : is_duplicate_entry e0 (entryMessage e0)
      (processLines suite (processLine suite fc l0) ls) = true :=
    is_duplicate_processLines _ _ _ _ _ h1
  have h3 : is_duplicate_entry e (entryMessage e)
      (processLines suite (processLine suite fc l0) ls) = true := by
    rw [is_duplicate_entry_congr_func e e0 _ _ hfunc, hmsg]
    exact h2
  exact processLine_duplicate suite _ l e hparse h3

/-- C3: a non-duplicate entry with level "error" yields exactly two cases
named after its `func` — the failing case and the failure-free flaky
sibling — while a non-duplicate entry with level "fatal" yields exactly the
failing case and nothing else. -/
theorem c3_error_two_cases_fatal_one (entry : LogEntry) (fc : FailCases)
    (suite : String)
    (hdup : is_duplicate_entry entry (entryMessage entry) fc = false) :
    (entry.level = "error" →
      get_log_entry_case entry fc suite =
        [{ name := entry.func, classname := suite, category := suite,
           timestamp := some entry.time,
           failures := [{ message := entryMessage entry,
                          output := entryMessage entry, type := entry.level }] },
         { name := entry.func, classname := suite, category := suite,
           timestamp := none, failures := [] }]) ∧
    (entry.level = "fatal" →
      get_log_entry_case entry fc suite =
        [{ name := entry.func, classname := suite, category := suite,
           timestamp := some entry.time,
           failures := [{ message := entryMessage entry,
                          output := entryMessage entry, type := entry.level }] }]) := by
  constructor
  · intro hl
    rw [get_log_entry_case_not_dup entry fc suite hdup]
    have hne : entry.level ≠ "fatal" := by rw [hl]; decide
    rw [if_pos hne]
  · intro hl
    rw [get_log_entry_case_not_dup entry fc suite hdup]
    have hne : ¬entry.level ≠ "fatal" := by rw [hl]; decide
    rw [if_neg hne]

/-- C6: processing a line cannot fail, and a line contributes nothing unless
it matches the format with an exported level: a non-matching line leaves the
state untouched, and so does a matching line whose level is outside
`{fatal, error}`.  (The embedding is a total function, so "never raises" is
inherent.) -/
theorem c6_nonmatching_and_filtered_lines_contribute_nothing
    (suite : String) (fc : FailCases) (l : String) :
    (pyMatchLog l = none → processLine suite fc l = fc) ∧
    (∀ e, pyMatchLog l = some e → EXPORTED_LOG_LEVELS.contains e.level = false →
      processLine suite fc l = fc) := by
  constructor
  · intro h
    exact processLine_none suite fc l h
  · intro e he hlev
    rw [processLine_some suite fc l e he, if_neg (by rw [hlev]; decide)]

/-- C7: a non-suppressed entry yields a failing case named after its `func`,
with classname (and category) the suite name and timestamp the entry's time,
carrying exactly one failure whose message and output are the composed
message and whose type is the entry's level. -/
theorem c7_failing_case_carries_entry_data (entry : LogEntry) (fc : FailCases)
    (suite : String)
    (hdup : is_duplicate_entry entry (entryMessage entry) fc = false) :
    (get_log_entry_case entry fc suite).head? =
      some { name := entry.func, classname := suite, category := suite,
             timestamp := some entry.time,
             failures := [{ message := entryMessage entry, output := entryMessage entry,
                            type := entry.level }] } := by
  rw [get_log_entry_case_not_dup entry fc suite hdup]
  rfl

/-- C10: the flaky sibling emitted for a non-fatal, non-duplicate entry has
no timestamp and no failure: only its name, classname and category are set,
equal to those of the failing case it accompanies. -/
theorem c10_flaky_sibling_has_no_timestamp_no_failure (entry : LogEntry)
    (fc : FailCases) (suite : String)
    (hdup : is_duplicate_entry entry (entryMessage entry) fc = false)
    (hlvl : entry.level ≠ "fatal") :
    get_log_entry_case entry fc suite =
      [{ name := entry.func, classname := suite, category := suite,
         timestamp := some entry.time,
         failures := [{ message := entryMessage entry, output := entryMessage entry,
                        type := entry.level }] },
       { name := entry.func, classname := suite, category := suite,
         timestamp := none, failures := [] }] := by
  rw [get_log_entry_case_not_dup entry fc suite hdup, if_pos hlvl]

/-! ## The per-function uniqueness invariant -/

/-- No two cases of the list carry the same first-failure message (cases
without failures are unconstrained). -/
def distinctFirstMessages (cs : List TestCase) : Prop :=
  cs.Pairwise fun a b =>
    ∀ m, firstFailureMessage a = some m → firstFailureMessage b ≠ some m

theorem distinct_dictAppend_entry (fc' : FailCases) (e : LogEntry) (s : String)
    (F : String) (h : ∀ G, distinctFirstMessages (dictGet fc' G)) :
    distinctFirstMessages
      (dictGet (dictAppend fc' e.func (get_log_entry_case e fc' s)) F) := by
  rw [dictGet_dictAppend]
  split
  case isTrue hcond =>
    obtain ⟨hF, -⟩ := hcond
    by_cases hdup : is_duplicate_entry e (entryMessage e) fc' = true
    · rw [get_log_entry_case_dup e fc' s hdup]
      simp only [List.append_nil]
      exact h F
    · have hdup' : is_duplicate_entry e (entryMessage e) fc' = false := by
        rwa [Bool.not_eq_true] at hdup
      rw [get_log_entry_case_not_dup e fc' s hdup']
      unfold distinctFirstMessages
      apply List.pairwise_append.mpr
      refine ⟨h F, ?_, ?_⟩
      · by_cases hfat : e.level ≠ "fatal"
        · rw [if_pos hfat]
          constructor
          · intro b hb m hm
            have hbf : b = ({ name := e.func, classname := s, category := s } : TestCase) := by
              simpa using hb
            subst hbf
            simp [firstFailureMessage]
          · simp
        · rw [if_neg hfat]
          simp
      · intro a ha b hb m hm
        rw [is_duplicate_entry_eq_false_iff] at hdup'
        have ha' : a ∈ dictGet fc' e.func := by rw [hF]; exact ha
        have hne := hdup' a ha'
        rcases List.mem_cons.mp hb with hb1 | hb2
        · subst hb1
          intro hcontra
          have hMm : entryMessage e = m := by
            simpa [firstFailureMessage] using hcontra
          exact hne (by rw [hMm]; exact hm)
        · have hbnone : firstFailureMessage b = none := by
            split at hb2
            · have hbf : b = ({ name := e.func, classname := s, category := s } : TestCase) := by
                simpa using hb2
              subst hbf
              rfl
            · simp at hb2
          simp [hbnone]
  case isFalse =>
    exact h F

theorem distinct_processLine (s : String) (fc : FailCases) (l : String)
    (h : ∀ F, distinctFirstMessages (dictGet fc F)) (F : String) :
    distinctFirstMessages (dictGet (processLine s fc l) F) := by
  cases hp : pyMatchLog l with
  | none => rw [processLine_none s fc l hp]; exact h F
  | some e =>
    rw [processLine_some s fc l e hp]
    by_cases hlev : EXPORTED_LOG_LEVELS.contains e.level = true
    · rw [if_pos hlev]
      by_cases hk : dictHasKey fc e.func = true
      · rw [if_pos hk]
        exact distinct_dictAppend_entry fc e s F h
      · rw [if_neg hk]
        apply distinct_dictAppend_entry (fc ++ [(e.func, [])]) e s F
        intro G
        rw [dictGet_append_empty]
        exact h G
    · rw [if_neg hlev]
      exact h F

theorem distinct_processLines (s : String) (ls : List String) (fc : FailCases)
    (h : ∀ F, distinctFirstMessages (dictGet fc F)) :
    ∀ F, distinctFirstMessages (dictGet (processLines s fc ls) F) := by
  induction ls generalizing fc with
  | nil => exact h
  | cons l ls ih => exact ih _ (distinct_processLine s fc l h)

/-- C9: while a file is processed, the accumulated collection never holds
two failing cases with the same function and the same composed message;
and the suppression is level-insensitive: an entry whose `(func, message)`
matches an earlier failing case produces nothing whatever its own level,
since `is_duplicate_entry` never looks at the level. -/
theorem c9_uniqueness_invariant_level_insensitive (suite : String)
    (lines : List String) :
    (∀ F, distinctFirstMessages (dictGet (processLines suite [] lines) F)) ∧
    (∀ fc e, is_duplicate_entry e (entryMessage e) fc = true →
      get_log_entry_case e fc suite = []) ∧
    (∀ fc e m lvl,
      is_duplicate_entry { e with level := lvl } m fc = is_duplicate_entry e m fc) := by
  refine ⟨?_, ?_, ?_⟩
  · apply distinct_processLines
    intro F
    unfold distinctFirstMessages dictGet
    exact List.Pairwise.nil
  · intro fc e hdup
    exact get_log_entry_case_dup e fc suite hdup
  · intro fc e m lvl
    rfl

/-! ## Grouping of cases by function name -/

theorem name_of_mem_get_log_entry_case (e : LogEntry) (fc : FailCases) (s : String)
    (c : TestCase) (hc : c ∈ get_log_entry_case e fc s) : c.name = e.func := by
  by_cases hdup : is_duplicate_entry e (entryMessage e) fc = true
  · rw [get_log_entry_case_dup e fc s hdup] at hc
    simp at hc
  · have hdup' : is_duplicate_entry e (entryMessage e) fc = false := by
      rwa [Bool.not_eq_true] at hdup
    rw [get_log_entry_case_not_dup e fc s hdup'] at hc
    rcases List.mem_cons.mp hc with h1 | h2
    · subst h1; rfl
    · split at h2
      · have : c = ({ name := e.func, classname := s, category := s } : TestCase) := by
          simpa using h2
        subst this; rfl
      · simp at h2

theorem names_processLine (s : String) (fc : FailCases) (l : String)
    (h : ∀ F c, c ∈ dictGet fc F → c.name = F) :
    ∀ F c, c ∈ dictGet (processLine s fc l) F → c.name = F := by
  intro F c hc
  cases hp : pyMatchLog l with
  | none => rw [processLine_none s fc l hp] at hc; exact h F c hc
  | some e =>
    rw [processLine_some s fc l e hp] at hc
    by_cases hlev : EXPORTED_LOG_LEVELS.contains e.level = true
    · rw [if_pos hlev] at hc
      by_cases hk : dictHasKey fc e.func = true
      · rw [if_pos hk, dictGet_dictAppend] at hc
        split at hc
        next hcond =>
          rcases List.mem_append.mp hc with h1 | h2
          · exact h F c h1
          · rw [name_of_mem_get_log_entry_case e fc s c h2]
            exact hcond.1
        next => exact h F c hc
      · rw [if_neg hk, dictGet_dictAppend] at hc
        split at hc
        next hcond =>
          rw [dictGet_append_empty] at hc
          rcases List.mem_append.mp hc with h1 | h2
          · exact h F c h1
          · rw [name_of_mem_get_log_entry_case e _ s c h2]
            exact hcond.1
        next =>
          rw [dictGet_append_empty] at hc
          exact h F c hc
    · rw [if_neg hlev] at hc
      exact h F c hc

theorem names_processLines (s : String) (ls : List String) (fc : FailCases)
    (h : ∀ F c, c ∈ dictGet fc F → c.name = F) :
    ∀ F c, c ∈ dictGet (processLines s fc ls) F → c.name = F := by
  induction ls generalizing fc with
  | nil => exact h
  | cons l ls ih => exact ih _ (names_processLine s fc l h)

/-- C8: the export builds exactly one suite per matching file (also when the
file yields no cases); the suite's case list is the flattening, in
dictionary order, of the per-function groups, where every case of a group
is named after its group's function; and the suite's timestamp is the first
case's timestamp, or unset when there are no cases. -/
theorem c8_one_suite_per_file (stem : String) (lines : List String)
    (files : List (String × List String)) :
    (export_service_logs_to_junit_suites files).length = files.length ∧
    export_service_logs_to_junit_suites [(stem, lines)] = [build_suite stem lines] ∧
    (build_suite stem lines).test_cases =
      ((processLines (suite_name_of_stem stem) [] lines).map Prod.snd).flatten ∧
    (∀ F c, c ∈ dictGet (processLines (suite_name_of_stem stem) [] lines) F →
      c.name = F) ∧
    (build_suite stem lines).timestamp =
      (match (build_suite stem lines).test_cases with
        | [] => none
        | c :: _ => c.timestamp) := by
  refine ⟨?_, rfl, rfl, ?_, rfl⟩
  · simp [export_service_logs_to_junit_suites]
  · apply names_processLines
    intro F c hc
    simp [dictGet] at hc

/-! ## The optional error group and the trailing space (C2) -/

/-- C2: the code evaluated on the claim's own scenario.  A fatal line that
ends immediately after `file="<path>"` does NOT match `LOG_FORMAT` — the
pattern demands a space after the closing quote of the file field even when
the error group is absent — so the file produces no testcase at all; the
claimed behaviour (error unset, one testcase with failure `"boom\n"`) is
only obtained when a trailing space follows the file field. -/
theorem c2_line_without_trailing_space_is_dropped :
    pyMatchLog "time=\"t\" level=fatal msg=\"boom\" func=Install file=\"f.go\"" = none ∧
    pyMatchLog "time=\"t\" level=fatal msg=\"boom\" func=Install file=\"f.go\"\n" = none ∧
    get_failure_cases
      ["time=\"t\" level=fatal msg=\"boom\" func=Install file=\"f.go\"\n"]
      "assisted-service-abc" = [] ∧
    pyMatchLog "time=\"t\" level=fatal msg=\"boom\" func=Install file=\"f.go\" " =
      some { time := "t", level := "fatal", msg := "boom", func := "Install",
             file := "f.go", error := none } ∧
    get_failure_cases
      ["time=\"t\" level=fatal msg=\"boom\" func=Install file=\"f.go\" \n"]
      "assisted-service-abc" =
      [{ name := "Install", classname := "assisted-service-abc",
         category := "assisted-service-abc", timestamp := some "t",
         failures := [{ message := "boom\n", output := "boom\n", type := "fatal" }] }] := by
  refine ⟨by decide, by decide, by decide, by decide, by decide⟩

/-! ## Exit behaviour of `main` (C4) -/

/-- C4 counterexample: not every input reaches the suppressed region.  When
`--dst` names a directory whose parent does not exist,
`report_dir.mkdir(exist_ok=True)` raises before the `SuppressAndLog` block is
entered, and `main` does not terminate normally with exit code 0. -/
theorem c4_counterexample_mkdir_escapes :
    main_model (.exc "FileNotFoundError: no parent directory for --dst") (.ok ()) ≠
      PyResult.ok 0 := by
  decide

/-- C4 (amended): once the destination directory has been created, any
exception of the export body — directory scanning, parsing, report writing —
is swallowed by `SuppressAndLog` and the process finishes with exit code 0;
only failures of the `mkdir` setup step, which runs before the suppression,
can escape. -/
theorem c4_export_exceptions_are_swallowed (export_result : PyResult Unit) :
    SuppressAndLog export_result = .ok () ∧
    main_model (.ok ()) export_result = .ok 0 := by
  cases export_result <;> exact ⟨rfl, rfl⟩

/-! ## Suite names (C5) -/

theorem toList_append (s t : String) : (s ++ t).toList = s.toList ++ t.toList :=
  String.data_append s t

theorem hasSubstr_cons (pat : List Char) (c : Char) (s : List Char) :
    hasSubstr pat (c :: s) = (pat.isPrefixOf (c :: s) || hasSubstr pat s) := by
  unfold hasSubstr
  rw [List.tails_cons]
  simp

theorem pyReplaceF_no_occurrence (pat rep : List Char) (fuel : Nat)
    (s : List Char) (h : hasSubstr pat s = false) :
    pyReplaceF pat rep fuel s = s := by
  induction fuel generalizing s with
  | zero => cases s <;> rfl
  | succ fuel ih =>
    cases s with
    | nil => rfl
    | cons c rest =>
      rw [hasSubstr_cons, Bool.or_eq_false_iff] at h
      simp only [pyReplaceF]
      rw [if_neg fun hcon => by rw [h.1] at hcon; exact Bool.false_ne_true hcon.2]
      rw [ih rest h.2]

theorem pyReplaceF_consumes_leading_occurrence (p : Char) (pt rep s : List Char)
    (fuel : Nat) :
    pyReplaceF (p :: pt) rep (fuel + 1) (p :: (pt ++ s)) =
      rep ++ pyReplaceF (p :: pt) rep fuel s := by
  simp only [pyReplaceF]
  rw [if_pos]
  · have hdrop : (pt ++ s).drop ((p :: pt).length - 1) = s := by
      simp only [List.length_cons, Nat.add_sub_cancel]
      exact List.drop_left pt s
    rw [hdrop]
  · refine ⟨by simp, ?_⟩
    rw [List.isPrefixOf_iff_prefix]
    rw [show p :: (pt ++ s) = (p :: pt) ++ s from rfl]
    exact List.prefix_append _ _

/-- C5 counterexample: `str.replace` removes every occurrence of `"k8s_"`,
not only the leading prefix, so an occurrence inside the base name is not
preserved as the claim states. -/
theorem c5_counterexample_inner_occurrence_removed :
    suite_name_of_stem "k8s_assisted-service-k8s_x" = "assisted-service-x" ∧
    "assisted-service-x" ≠ "assisted-service-k8s_x" := by
  refine ⟨by decide, by decide⟩

/-- C5 (amended): the suite name is the stem with every occurrence of the
substring `"k8s_"` removed (leftmost first, non-overlapping); in particular,
when `"k8s_"` occurs only as the leading prefix, the suite name is exactly
the stem with that prefix removed and the remainder intact. -/
theorem c5_amended_suite_name_strips_every_occurrence (r : String)
    (h : hasSubstr "k8s_".toList r.toList = false) :
    suite_name_of_stem ("k8s_" ++ r) = r := by
  unfold suite_name_of_stem pyReplace
  have hp : "k8s_".toList = 'k' :: ['8', 's', '_'] := rfl
  have htl : ("k8s_" ++ r).toList = 'k' :: (['8', 's', '_'] ++ r.toList) := by
    rw [toList_append, hp]
    rfl
  rw [htl, hp]
  rw [show ('k' :: (['8', 's', '_'] ++ r.toList)).length =
        (['8', 's', '_'] ++ r.toList).length + 1 from rfl]
  rw [pyReplaceF_consumes_leading_occurrence]
  rw [pyReplaceF_no_occurrence _ _ _ _ (by rw [hp] at h; exact h)]
  rw [List.nil_append]
  rfl

/-! ## Concrete instantiations of the hypotheses above -/

theorem c1_witness :
    processLine "s"
      (processLines "s"
        (processLine "s" [] "time=\"t1\" level=error msg=\"m\" func=F file=\"f\" ")
        ["not a log line"])
      "time=\"t2\" level=fatal msg=\"m\" func=F file=\"f\" " =
    processLines "s"
      (processLine "s" [] "time=\"t1\" level=error msg=\"m\" func=F file=\"f\" ")
      ["not a log line"] :=
  c1_later_identical_lines_add_nothing "s" []
    "time=\"t1\" level=error msg=\"m\" func=F file=\"f\" "
    { time := "t1", level := "error", msg := "m", func := "F", file := "f",
      error := none }
    ["not a log line"]
    "time=\"t2\" level=fatal msg=\"m\" func=F file=\"f\" "
    { time := "t2", level := "fatal", msg := "m", func := "F", file := "f",
      error := none }
    (by decide) rfl rfl (by decide) (by decide)

theorem c3_witness :
    get_log_entry_case
      { time := "t", level := "error", msg := "m", func := "F", file := "f",
        error := none } [] "s" =
      [{ name := "F", classname := "s", category := "s", timestamp := some "t",
         failures := [{ message := "m\n", output := "m\n", type := "error" }] },
       { name := "F", classname := "s", category := "s", timestamp := none,
         failures := [] }] :=
  (c3_error_two_cases_fatal_one
    { time := "t", level := "error", msg := "m", func := "F", file := "f",
      error := none } [] "s" (by decide)).1 rfl

theorem c5_witness :
    hasSubstr "k8s_".toList "assisted-service-abc".toList = false ∧
    suite_name_of_stem ("k8s_" ++ "assisted-service-abc") = "assisted-service-abc" :=
  ⟨by decide,
   c5_amended_suite_name_strips_every_occurrence "assisted-service-abc" (by decide)⟩

theorem c6_witness :
    processLine "s" [] "garbage" = [] ∧
    processLine "s" [] "time=\"t\" level=info msg=\"m\" func=F file=\"f\" " = [] :=
  ⟨(c6_nonmatching_and_filtered_lines_contribute_nothing "s" [] "garbage").1
      (by decide),
   (c6_nonmatching_and_filtered_lines_contribute_nothing "s" []
      "time=\"t\" level=info msg=\"m\" func=F file=\"f\" ").2
      { time := "t", level := "info", msg := "m", func := "F", file := "f",
        error := none }
      (by decide) (by decide)⟩

theorem c7_witness :
    (get_log_entry_case
      { time := "t", level := "fatal", msg := "m", func := "F", file := "f",
        error := some "e" } [] "s").head? =
      some { name := "F", classname := "s", category := "s",
             timestamp := some "t",
             failures := [{ message := "m\ne", output := "m\ne",
                            type := "fatal" }] } :=
  c7_failing_case_carries_entry_data
    { time := "t", level := "fatal", msg := "m", func := "F", file := "f",
      error := some "e" } [] "s" (by decide)

theorem c8_witness :
    ({ name := "F", classname := "x", category := "x", timestamp := some "t",
       failures := [{ message := "m\n", output := "m\n",
                      type := "error" }] } : TestCase).name = "F" :=
  (c8_one_suite_per_file "k8s_x"
    ["time=\"t\" level=error msg=\"m\" func=F file=\"f\" "] []).2.2.2.1 "F"
    { name := "F", classname := "x", category := "x", timestamp := some "t",
      failures := [{ message := "m\n", output := "m\n", type := "error" }] }
    (by decide)

theorem c9_witness :
    get_log_entry_case
      { time := "t2", level := "fatal", msg := "m", func := "F", file := "f",
        error := none }
      [("F", [{ name := "F", classname := "s", category := "s",
                timestamp := some "t1",
                failures := [{ message := "m\n", output := "m\n",
                               type := "error" }] }])]
      "s" = [] :=
  (c9_uniqueness_invariant_level_insensitive "s" []).2.1
    [("F", [{ name := "F", classname := "s", category := "s",
              timestamp := some "t1",
              failures := [{ message := "m\n", output := "m\n",
                             type := "error" }] }])]
    { time := "t2", level := "fatal", msg := "m", func := "F", file := "f",
      error := none }
    (by decide)

theorem c10_witness :
    get_log_entry_case
      { time := "ts", level := "error", msg := "boom", func := "G", file := "g",
        error := some "x" } [] "s" =
      [{ name := "G", classname := "s", category := "s", timestamp := some "ts",
         failures := [{ message := "boom\nx", output := "boom\nx",
                        type := "error" }] },
       { name := "G", classname := "s", category := "s", timestamp := none,
         failures := [] }] :=
  c10_flaky_sibling_has_no_timestamp_no_failure
    { time := "ts", level := "error", msg := "boom", func := "G", file := "g",
      error := some "x" } [] "s" (by decide) (by decide)

end JunitLogParser
